import Mathlib

/-!
Verification of the upload/metadata/serving core of the `tree-node` server
(`app.js`, ES-module variant with sharp compression).  The server keeps

  * a blob store: the `uploads/` directory, holding compressed `.webp` files
    addressed by generated name, and
  * a metadata store: the SQLite `trees` table with columns
    `id TEXT PRIMARY KEY, images TEXT, colors TEXT, created_at`.

We embed both as explicit state (`ServerState`), the HTTP handlers as pure
functions from request data and state to a response and a new state, and the
validation regexes as executable character-list matchers.  JSON round-tripping
of the palette (`JSON.parse ∘ JSON.stringify` on an object of three plain
strings) is the identity, so the stored `colors` column is modelled as the
parsed structure.
-/

namespace TreeNode

/-- The three palette fields `{primary, accent, light}` sent with an upload and
stored (JSON-encoded) in the `colors` column. -/
structure Colors where
  primary : String
  accent : String
  light : String
deriving DecidableEq, Repr

/-- One row of the `trees` table: `id` (uuid), `images` (JSON list of blob
filenames, upload order), `colors`, `created_at`. -/
structure TreeRecord where
  id : String
  images : List String
  colors : Colors
  createdAt : String
deriving DecidableEq, Repr

/-- The server's durable state: the filenames present in the uploads directory
(the blob store) and the rows of the `trees` table (the metadata store). -/
structure ServerState where
  blobs : List String
  trees : List TreeRecord
deriving DecidableEq, Repr

/-! ## Character classes and the validation regexes

`app.js` validates with two regexes:
  * `/^\d+-[a-z0-9]+\.webp$/i` for served image names, and
  * `/^[0-9a-f]{8}-[0-9a-f]{4}-[0-9a-f]{4}-[0-9a-f]{4}-[0-9a-f]{12}$/i` for
    tree ids.
Both are embedded as executable matchers on `List Char`.  The `i` flag makes
letter classes case-insensitive, hence the upper-case alternatives below. -/

/-- `\d`: an ASCII decimal digit. -/
def isDigitChar (c : Char) : Bool := '0' ≤ c && c ≤ '9'

/-- `[a-z0-9]` under the `/i` flag: digits and letters of either case. -/
def isAlnumChar (c : Char) : Bool :=
  isDigitChar c || ('a' ≤ c && c ≤ 'z') || ('A' ≤ c && c ≤ 'Z')

/-- `[0-9a-f]` under the `/i` flag: a hexadecimal digit of either case. -/
def isHexChar (c : Char) : Bool :=
  isDigitChar c || ('a' ≤ c && c ≤ 'f') || ('A' ≤ c && c ≤ 'F')

/-- `\.webp` under `/i`, anchored at the end: the remaining characters spell
`.webp` up to letter case. -/
def isDotWebp (cs : List Char) : Bool :=
  cs.map Char.toLower == ['.', 'w', 'e', 'b', 'p']

/-- `/^\d+-[a-z0-9]+\.webp$/i` — the filename-shape check of
`GET /api/image/:filename`.  Since `-` is not a digit and `.` is not
alphanumeric, the greedy scan below is equivalent to the regex. -/
def matchWebpName (cs : List Char) : Bool :=
  let ds := cs.takeWhile isDigitChar
  match cs.dropWhile isDigitChar with
  | '-' :: rest =>
    let asPart := rest.takeWhile isAlnumChar
    !ds.isEmpty && !asPart.isEmpty && isDotWebp (rest.dropWhile isAlnumChar)
  | _ => false

/-- Consume exactly `n` hexadecimal characters, returning the remainder. -/
def consumeHex : Nat → List Char → Option (List Char)
  | 0, cs => some cs
  | _ + 1, [] => none
  | n + 1, c :: cs => if isHexChar c then consumeHex n cs else none

/-- Consume one expected character, returning the remainder. -/
def consumeChar (c : Char) : List Char → Option (List Char)
  | [] => none
  | d :: cs => if d == c then some cs else none

/-- `/^[0-9a-f]{8}-[0-9a-f]{4}-[0-9a-f]{4}-[0-9a-f]{4}-[0-9a-f]{12}$/i` — the
uuid-shape check of `GET /api/tree/:id`.  The pattern is a fixed sequence of
fixed-width groups, so sequential consumption is equivalent to the regex. -/
def matchUuid (cs : List Char) : Bool :=
  (do
    let r ← consumeHex 8 cs
    let r ← consumeChar '-' r
    let r ← consumeHex 4 r
    let r ← consumeChar '-' r
    let r ← consumeHex 4 r
    let r ← consumeChar '-' r
    let r ← consumeHex 4 r
    let r ← consumeChar '-' r
    consumeHex 12 r) == some []

/-! ## GET /api/tree/:id -/

/-- Response of the tree-retrieval handler: an error status with message, or
the JSON body `{id, colors, imageUrls, createdAt}`. -/
inductive TreeResult where
  | err (status : Nat) (msg : String)
  | ok (id : String) (colors : Colors) (imageUrls : List String) (createdAt : String)
deriving DecidableEq, Repr

/-- The `GET /api/tree/:id` handler.  `baseUrl` is
`` `${req.protocol}://${req.get('host')}` ``.  The uuid-shape check happens
before the database is consulted; `db.get` on the primary key is a first-match
lookup; image URLs are built from the stored filenames in stored order. -/
def getTree (st : ServerState) (baseUrl : String) (id : String) : TreeResult :=
  if !matchUuid id.toList then
    .err 400 "Invalid ID format"
  else
    match st.trees.find? (fun r => r.id == id) with
    | none => .err 404 "Tree not found"
    | some row =>
      .ok row.id row.colors
        (row.images.map (fun f => baseUrl ++ "/api/image/" ++ f)) row.createdAt

/-! ## GET /api/image/:filename -/

/-- Response of the image-serving handler: an error status with message, or
the streamed file (with `Cache-Control` and `image/webp` headers). -/
inductive ImageResult where
  | err (status : Nat) (msg : String)
  | file (name : String)
deriving DecidableEq, Repr

/-- `String.prototype.includes`: `pat` occurs as a contiguous subsequence. -/
def containsSub (pat : List Char) : List Char → Bool
  | [] => pat.isEmpty
  | c :: rest => pat.isPrefixOf (c :: rest) || containsSub pat rest

/-- The traversal check of the image handler:
`filename.includes('..') || filename.includes('/') || filename.includes('\\')`. -/
def hasTraversal (name : String) : Bool :=
  containsSub ['.', '.'] name.toList
    || name.toList.contains '/' || name.toList.contains '\\'

/-- The `GET /api/image/:filename` handler over an explicit view `fsFiles` of
the uploads directory.  Traversal check, then shape check, then existence
check — the first two never touch the filesystem. -/
def serveImage (fsFiles : List String) (name : String) : ImageResult :=
  if hasTraversal name then
    .err 403 "Invalid filename"
  else if !matchWebpName name.toList then
    .err 400 "Invalid filename format"
  else if fsFiles.contains name then
    .file name
  else
    .err 404 "Image not found"

/-! ## POST /api/upload

The upload pipeline is: multer (memory storage, per-file MIME filter, 10 MB
size limit, `upload.array('files', 20)` count cap) → handler (empty-batch and
palette checks) → `compressAndSaveImage` per file in parallel via
`Promise.all` → `db.run INSERT`.  With memory storage multer writes nothing to
disk, so a multer rejection leaves the state unchanged.  Whether sharp can
decode a file's bytes is abstracted as the Boolean field `decodable`; a
successful `compressAndSaveImage` writes one blob under a fresh generated
name, a failing one writes nothing and rejects its promise.  `Promise.all`
starts every per-file promise before awaiting, and promises are not cancelled,
so every decodable file's blob is written even when a sibling fails. -/

/-- One multipart file as multer presents it: declared MIME type, byte size of
the buffer, and whether sharp can decode the buffer (`decodable` abstracts the
bytes' well-formedness). -/
structure UploadFile where
  mimetype : String
  size : Nat
  decodable : Bool
deriving DecidableEq, Repr

/-- One `POST /api/upload` request: the multipart files in submission order and
the three text fields (`none` = field absent; JS treats the empty string as
falsy too). -/
structure UploadRequest where
  files : List UploadFile
  primary : Option String
  accent : Option String
  light : Option String
deriving DecidableEq, Repr

/-- The MIME allow-list of the multer `fileFilter`. -/
def allowedMimes : List String :=
  ["image/jpeg", "image/png", "image/gif", "image/webp"]

/-- `limits: { fileSize: 10 * 1024 * 1024 }`. -/
def maxFileSize : Nat := 10 * 1024 * 1024

/-- `upload.array('files', 20)`. -/
def maxFileCount : Nat := 20

/-- The multer-level check for the file at stream position `idx`: the
`maxCount` cap (exceeding `upload.array`'s per-field cap raises
`LIMIT_UNEXPECTED_FILE`, whose message is "Unexpected field"), then the
`fileFilter` MIME check, then the streaming `fileSize` limit (a file of
exactly the limit passes).  Each produces a 400 through the error-handling
middleware. -/
def fileError (idx : Nat) (f : UploadFile) : Option (Nat × String) :=
  if maxFileCount ≤ idx then some (400, "Unexpected field")
  else if !allowedMimes.contains f.mimetype then
    some (400, "Only JPEG, PNG, GIF, and WebP images are allowed")
  else if maxFileSize < f.size then some (400, "File too large (max 10MB)")
  else none

/-- Scan the files in stream order; the first violation aborts the request. -/
def multerScan : Nat → List UploadFile → Option (Nat × String)
  | _, [] => none
  | i, f :: fs =>
    match fileError i f with
    | some e => some e
    | none => multerScan (i + 1) fs

/-- JS falsiness of a text field: absent or the empty string. -/
def falsy : Option String → Bool
  | none => true
  | some s => s == ""

/-- The blob names written by the batch: `compressAndSaveImage` generates a
fresh name for the file at index `i` (`nameGen i` models
`` `${Date.now()}-${Math.random().toString(36).substring(2,8)}.webp` ``) and
writes the blob exactly when sharp decodes the buffer. -/
def writtenNames (nameGen : Nat → String) : Nat → List UploadFile → List String
  | _, [] => []
  | i, f :: fs =>
    (if f.decodable then [nameGen i] else []) ++ writtenNames nameGen (i + 1) fs

/-- Response of the upload handler: an error status with message, or the JSON
body `{id}`. -/
inductive UploadResult where
  | err (status : Nat) (msg : String)
  | ok (id : String)
deriving DecidableEq, Repr

/-- The HTTP status of an upload response (200 for the JSON success body). -/
def statusOf : UploadResult → Nat
  | .err s _ => s
  | .ok _ => 200

/-- The handler's environment: the generated blob name per file index, the
`uuidv4()` record id, whether the SQLite `INSERT` succeeds, and the
`CURRENT_TIMESTAMP` the database assigns. -/
structure UploadEnv where
  nameGen : Nat → String
  treeId : String
  insertOk : Bool
  now : String

/-- The full `POST /api/upload` pipeline.  Stages, in source order:
multer; the `req.files` emptiness check; the `!primary || !accent || !light`
check; `Promise.all` over `compressAndSaveImage` (every decodable file's blob
is written; if any file fails the catch block returns 500 *without* removing
the siblings' blobs); `db.run INSERT` (on success respond `{id}`, on error
unlink every blob of the batch and respond 500). -/
def processUpload (env : UploadEnv) (req : UploadRequest) (st : ServerState) :
    UploadResult × ServerState :=
  match multerScan 0 req.files with
  | some (code, msg) => (.err code msg, st)
  | none =>
    if req.files.isEmpty then (.err 400 "No files uploaded", st)
    else if falsy req.primary || falsy req.accent || falsy req.light then
      (.err 400 "Missing color configuration", st)
    else
      let written := writtenNames env.nameGen 0 req.files
      let st1 : ServerState := { st with blobs := st.blobs ++ written }
      if req.files.all (fun f => f.decodable) then
        if env.insertOk then
          let rec' : TreeRecord :=
            { id := env.treeId
              images := written
              colors :=
                { primary := (req.primary.getD "")
                  accent := (req.accent.getD "")
                  light := (req.light.getD "") }
              createdAt := env.now }
          (.ok env.treeId, { st1 with trees := st1.trees ++ [rec'] })
        else
          (.err 500 "Database error",
            { st1 with blobs := st1.blobs.filter (fun b => !written.contains b) })
      else
        (.err 500 "Failed to process images", st1)

/-! ## The transcoder (sharp pipeline)

`compressAndSaveImage` runs
`sharp(buffer).resize(1920, 1920, { fit: 'inside', withoutEnlargement: true })
.webp({ quality: 80 })`.  sharp's documented `inside` fit scales both
dimensions by the single factor `min(maxWidth/w, maxHeight/h)`, and
`withoutEnlargement` caps that factor at 1.  We embed these semantics over ℚ
(exact, ignoring sharp's final rounding to whole pixels), parameterised by the
source's `COMPRESSION_CONFIG`. -/

/-- `COMPRESSION_CONFIG` from `app.js`. -/
structure CompressionConfig where
  maxWidth : ℚ
  maxHeight : ℚ
  quality : Nat
  format : String
deriving Repr

/-- The source's settings: 1920×1920 ceiling, WebP at quality 80. -/
def COMPRESSION_CONFIG : CompressionConfig :=
  { maxWidth := 1920, maxHeight := 1920, quality := 80, format := "webp" }

/-- The transcoder's observable output: pixel dimensions, container format,
encoder quality. -/
structure TranscodeOutput where
  width : ℚ
  height : ℚ
  format : String
  quality : Nat
deriving Repr

/-- The sharp pipeline of `compressAndSaveImage` applied to a decodable source
of dimensions `w × h`: `inside` fit with `withoutEnlargement`, re-encoded per
`COMPRESSION_CONFIG`. -/
def transcode (w h : ℚ) : TranscodeOutput :=
  let s := min 1 (min (COMPRESSION_CONFIG.maxWidth / w) (COMPRESSION_CONFIG.maxHeight / h))
  { width := w * s
    height := h * s
    format := COMPRESSION_CONFIG.format
    quality := COMPRESSION_CONFIG.quality }

/-! ## Blob-name generation

`compressAndSaveImage` names its output
`` `${Date.now()}-${Math.random().toString(36).substring(2, 8)}.webp` ``.
For `r ∈ [0,1)` returned by `Math.random()`, `r.toString(36)` is `"0"` when
`r = 0` and otherwise `"0." ++ fracDigits` where `fracDigits` is a non-empty
string of base-36 digits (characters `0`–`9`, `a`–`z`); `substring(2, 8)`
therefore yields the first six fractional digits — and the *empty string*
when `r = 0`.  We model the random part by its fractional digit list `frac`
(`frac = []` exactly when `r = 0`) and `Date.now()` by its decimal
rendering. -/

/-- The decimal digit character for `d < 10`. -/
def digitChar (d : Nat) : Char := Char.ofNat (48 + d)

/-- Decimal rendering with an explicit recursion budget; `fuel > n` always
suffices since the argument strictly decreases under division by 10. -/
def natDigitsAux (fuel n : Nat) : List Char :=
  match fuel with
  | 0 => []
  | fuel + 1 =>
    if n < 10 then [digitChar n]
    else natDigitsAux fuel (n / 10) ++ [digitChar (n % 10)]

/-- Decimal rendering of a natural number, most significant digit first —
the digits of `` `${Date.now()}` ``. -/
def natDigits (n : Nat) : List Char := natDigitsAux (n + 1) n

/-- A base-36 digit as produced by `Number.prototype.toString(36)`. -/
def isBase36Digit (c : Char) : Bool :=
  isDigitChar c || ('a' ≤ c && c ≤ 'z')

/-- The generated blob name for timestamp `t` and random fractional digits
`frac`: `` `${t}-${frac.take 6}.webp` ``. -/
def genBlobName (t : Nat) (frac : List Char) : String :=
  String.mk (natDigits t) ++ "-" ++ String.mk (frac.take 6) ++ ".webp"

/-! ## Stateful retrieval

Both GET handlers only read (`db.get`, `fs.existsSync`, `res.sendFile`); the
stateful wrappers below thread the server state through them so that
state-preservation is a statement, not a convention. -/

/-- One retrieval request: a tree lookup or an image fetch. -/
inductive RetrievalOp where
  | tree (baseUrl id : String)
  | image (name : String)

/-- `GET /api/tree/:id` as a state transformer. -/
def getTreeSt (baseUrl id : String) (st : ServerState) : TreeResult × ServerState :=
  (getTree st baseUrl id, st)

/-- `GET /api/image/:filename` as a state transformer; the handler's
filesystem view is the blob store. -/
def serveImageSt (name : String) (st : ServerState) : ImageResult × ServerState :=
  (serveImage st.blobs name, st)

/-- Run a sequence of retrieval requests, threading the server state. -/
def runRetrievals : List RetrievalOp → ServerState → ServerState
  | [], st => st
  | .tree b i :: ops, st => runRetrievals ops (getTreeSt b i st).2
  | .image n :: ops, st => runRetrievals ops (serveImageSt n st).2

/-! ## Concrete instances for witnesses and counterexamples -/

/-- The server's state right after startup with a fresh database. -/
def emptyState : ServerState := { blobs := [], trees := [] }

/-- A fixed environment: two concrete generated names, a concrete uuid, a
working database. -/
def demoEnv : UploadEnv :=
  { nameGen := fun i => if i == 0 then "10-aa.webp" else "11-aa.webp"
    treeId := "123e4567-e89b-12d3-a456-426614174000"
    insertOk := true
    now := "2025-01-01 00:00:00" }

/-- A well-formed JPEG upload part that sharp can decode. -/
def fileOkJpeg : UploadFile := { mimetype := "image/jpeg", size := 100, decodable := true }

/-- A part with an allowed MIME type whose bytes sharp cannot decode. -/
def fileBadBytes : UploadFile := { mimetype := "image/png", size := 100, decodable := false }

/-- A batch where the first file transcodes and the second one fails. -/
def mixedReq : UploadRequest :=
  { files := [fileOkJpeg, fileBadBytes]
    primary := some "#ff0000", accent := some "#00ff00", light := some "#0000ff" }

/-- A fully valid two-file batch. -/
def validReq : UploadRequest :=
  { files := [fileOkJpeg, fileOkJpeg]
    primary := some "#ff0000", accent := some "#00ff00", light := some "#0000ff" }

/-- A batch rejected by the multer MIME filter. -/
def badMimeReq : UploadRequest :=
  { files := [{ mimetype := "text/plain", size := 5, decodable := false }]
    primary := some "#ff0000", accent := some "#00ff00", light := some "#0000ff" }

/-- A stored record, for retrieval witnesses. -/
def demoRecord : TreeRecord :=
  { id := "123e4567-e89b-12d3-a456-426614174000"
    images := ["10-aa.webp"]
    colors := { primary := "#ff0000", accent := "#00ff00", light := "#0000ff" }
    createdAt := "2025-01-01 00:00:00" }

/-- A server state holding `demoRecord` and its blob. -/
def demoState : ServerState := { blobs := ["10-aa.webp"], trees := [demoRecord] }

/-! ## Theorems -/

/-- C5: a name passed to `GET /api/image/{name}` containing `..`, `/` or `\`
is rejected with 403, and a name free of those but not matching the
generated-name shape `{digits}-{alphanumerics}.webp` is rejected with 400 —
in both cases for every possible filesystem content, i.e. before and
independent of any filesystem access. -/
theorem serveImage_rejects_before_fs (name : String) :
    (hasTraversal name = true →
      ∀ fsFiles : List String,
        serveImage fsFiles name = ImageResult.err 403 "Invalid filename") ∧
    (hasTraversal name = false → matchWebpName name.toList = false →
      ∀ fsFiles : List String,
        serveImage fsFiles name = ImageResult.err 400 "Invalid filename format") := by
  constructor
  · intro h fsFiles
    simp [serveImage, h]
  · intro h₁ h₂ fsFiles
    simp [String.toList] at h₂
    simp [serveImage, h₁, h₂]

/-- Witness for C5: `"../secret"` is rejected 403 and `"notes.txt"` is
rejected 400 even when files of exactly those names exist on disk. -/
theorem serveImage_rejects_before_fs_witness :
    serveImage ["../secret"] "../secret" = ImageResult.err 403 "Invalid filename" ∧
    serveImage ["notes.txt"] "notes.txt" = ImageResult.err 400 "Invalid filename format" :=
  ⟨(serveImage_rejects_before_fs "../secret").1 (by decide) ["../secret"],
   (serveImage_rejects_before_fs "notes.txt").2 (by decide) (by decide) ["notes.txt"]⟩

/-- C6: `GET /api/tree/{id}` answers 400 for every id not matching the
8-4-4-4-12 hexadecimal shape, uniformly in the state (the store is never
consulted), and 404 for a shape-conforming id with no record. -/
theorem getTree_invalid_and_missing (id baseUrl : String) :
    (matchUuid id.toList = false →
      ∀ st : ServerState, getTree st baseUrl id = TreeResult.err 400 "Invalid ID format") ∧
    (matchUuid id.toList = true →
      ∀ st : ServerState, st.trees.find? (fun r => r.id == id) = none →
        getTree st baseUrl id = TreeResult.err 404 "Tree not found") := by
  constructor
  · intro h st
    simp [String.toList] at h
    simp [getTree, h]
  · intro h st hn
    simp [String.toList] at h
    simp [getTree, h, hn]

/-- Witness for C6: a malformed id gets 400 on the empty state, a well-formed
but unknown id gets 404. -/
theorem getTree_invalid_and_missing_witness :
    getTree ⟨[], []⟩ "http://h" "not-a-uuid" = TreeResult.err 400 "Invalid ID format" ∧
    getTree ⟨[], []⟩ "http://h" "123e4567-e89b-12d3-a456-426614174000" =
      TreeResult.err 404 "Tree not found" :=
  ⟨(getTree_invalid_and_missing "not-a-uuid" "http://h").1 (by decide) ⟨[], []⟩,
   (getTree_invalid_and_missing "123e4567-e89b-12d3-a456-426614174000" "http://h").2
     (by decide) ⟨[], []⟩ rfl⟩

/-- Retrieval requests never change the server state (both GET handlers only
read). -/
theorem runRetrievals_eq : ∀ (ops : List RetrievalOp) (st : ServerState),
    runRetrievals ops st = st
  | [], _ => rfl
  | .tree _ _ :: ops, st => runRetrievals_eq ops st
  | .image _ :: ops, st => runRetrievals_eq ops st

/-- C9: for a shape-valid id with a stored record, issuing the same tree
request twice in a row yields identical content, and no sequence of retrieval
requests (tree lookups or image fetches) changes the server state — hence no
sequence of them can change any record's resolved content. -/
theorem getTree_idempotent_no_drift (st : ServerState) (baseUrl id : String)
    (row : TreeRecord)
    (_hmatch : matchUuid id.toList = true)
    (_hrow : st.trees.find? (fun r => r.id == id) = some row) :
    (getTreeSt baseUrl id ((getTreeSt baseUrl id st).2)).1 = (getTreeSt baseUrl id st).1 ∧
    ∀ ops : List RetrievalOp,
      runRetrievals ops st = st ∧
      getTree (runRetrievals ops st) baseUrl id = getTree st baseUrl id := by
  refine ⟨rfl, fun ops => ?_⟩
  rw [runRetrievals_eq ops st]
  exact ⟨rfl, rfl⟩

/-- Witness for C9: the demo record resolves identically across repeated and
interleaved retrievals. -/
theorem getTree_idempotent_no_drift_witness :
    (getTreeSt "http://h" "123e4567-e89b-12d3-a456-426614174000"
        ((getTreeSt "http://h" "123e4567-e89b-12d3-a456-426614174000" demoState).2)).1 =
      (getTreeSt "http://h" "123e4567-e89b-12d3-a456-426614174000" demoState).1 ∧
    runRetrievals
        [RetrievalOp.tree "http://h" "123e4567-e89b-12d3-a456-426614174000",
         RetrievalOp.image "10-aa.webp"] demoState = demoState :=
  ⟨(getTree_idempotent_no_drift demoState "http://h"
      "123e4567-e89b-12d3-a456-426614174000" demoRecord (by decide) rfl).1,
   ((getTree_idempotent_no_drift demoState "http://h"
      "123e4567-e89b-12d3-a456-426614174000" demoRecord (by decide) rfl).2
      [RetrievalOp.tree "http://h" "123e4567-e89b-12d3-a456-426614174000",
       RetrievalOp.image "10-aa.webp"]).1⟩

/-- C7: for positive source dimensions, the sharp pipeline's output fits in
the 1920×1920 box, preserves the aspect ratio exactly, never exceeds the
source in either dimension, and is WebP at quality 80. -/
theorem transcode_spec (w h : ℚ) (hw : 0 < w) (hh : 0 < h) :
    (transcode w h).width ≤ 1920 ∧ (transcode w h).height ≤ 1920 ∧
    (transcode w h).width * h = w * (transcode w h).height ∧
    (transcode w h).width ≤ w ∧ (transcode w h).height ≤ h ∧
    (transcode w h).format = "webp" ∧ (transcode w h).quality = 80 := by
  have hw' : w ≠ 0 := ne_of_gt hw
  have hh' : h ≠ 0 := ne_of_gt hh
  set s := min 1 (min ((1920 : ℚ) / w) ((1920 : ℚ) / h)) with hs
  have hs1 : s ≤ 1 := min_le_left _ _
  have hsw : s ≤ 1920 / w := le_trans (min_le_right _ _) (min_le_left _ _)
  have hsh : s ≤ 1920 / h := le_trans (min_le_right _ _) (min_le_right _ _)
  have hwb : w * s ≤ 1920 := by
    have := mul_le_mul_of_nonneg_left hsw (le_of_lt hw)
    rwa [mul_div_cancel₀ _ hw'] at this
  have hhb : h * s ≤ 1920 := by
    have := mul_le_mul_of_nonneg_left hsh (le_of_lt hh)
    rwa [mul_div_cancel₀ _ hh'] at this
  have hwle : w * s ≤ w := by
    have := mul_le_mul_of_nonneg_left hs1 (le_of_lt hw)
    simpa using this
  have hhle : h * s ≤ h := by
    have := mul_le_mul_of_nonneg_left hs1 (le_of_lt hh)
    simpa using this
  refine ⟨?_, ?_, ?_, ?_, ?_, rfl, rfl⟩
  · simpa [transcode, COMPRESSION_CONFIG, ← hs] using hwb
  · simpa [transcode, COMPRESSION_CONFIG, ← hs] using hhb
  · show w * s * h = w * (h * s)
    ring
  · simpa [transcode, COMPRESSION_CONFIG, ← hs] using hwle
  · simpa [transcode, COMPRESSION_CONFIG, ← hs] using hhle

/-- Witness for C7: a 3840×1080 source. -/
theorem transcode_spec_witness :
    (0 : ℚ) < 3840 ∧ (0 : ℚ) < 1080 ∧
    ((transcode 3840 1080).width ≤ 1920 ∧ (transcode 3840 1080).height ≤ 1920 ∧
      (transcode 3840 1080).width * 1080 = 3840 * (transcode 3840 1080).height ∧
      (transcode 3840 1080).width ≤ 3840 ∧ (transcode 3840 1080).height ≤ 1080 ∧
      (transcode 3840 1080).format = "webp" ∧ (transcode 3840 1080).quality = 80) :=
  ⟨by norm_num, by norm_num,
    transcode_spec 3840 1080 (by norm_num) (by norm_num)⟩

/-- Every multer-level rejection carries status 400. -/
theorem multerScan_status : ∀ (i : Nat) (fs : List UploadFile) (c : Nat) (m : String),
    multerScan i fs = some (c, m) → c = 400 := by
  intro i fs
  induction fs generalizing i with
  | nil => intro c m h; simp [multerScan] at h
  | cons f fs ih =>
    intro c m h
    simp only [multerScan] at h
    cases he : fileError i f with
    | some e =>
      rw [he] at h
      unfold fileError at he
      split at he
      · cases he; cases h; rfl
      · split at he
        · cases he; cases h; rfl
        · split at he
          · cases he; cases h; rfl
          · cases he
    | none =>
      rw [he] at h
      exact ih (i + 1) c m h

/-- C4: an upload rejected by validation — a disallowed MIME type, an
oversized file, more than 20 files (all surfacing through multer), or a
missing/empty palette field — answers with status 400 and leaves the server
state (blob store and metadata store) unchanged. -/
theorem upload_rejected_no_side_effects (env : UploadEnv) (req : UploadRequest)
    (st : ServerState)
    (h : multerScan 0 req.files ≠ none ∨
      (falsy req.primary || falsy req.accent || falsy req.light) = true) :
    statusOf (processUpload env req st).1 = 400 ∧ (processUpload env req st).2 = st := by
  cases hm : multerScan 0 req.files with
  | some e =>
    obtain ⟨c, m⟩ := e
    have hc := multerScan_status 0 req.files c m hm
    subst hc
    simp [processUpload, hm, statusOf]
  | none =>
    rcases h with h | h
    · exact absurd hm h
    · cases hie : req.files.isEmpty with
      | true => simp [processUpload, hm, hie, statusOf]
      | false => simp [processUpload, hm, hie, h, statusOf]

/-- Witness for C4: a single `text/plain` part is rejected with 400 and the
state is untouched. -/
theorem upload_rejected_no_side_effects_witness :
    statusOf (processUpload demoEnv badMimeReq emptyState).1 = 400 ∧
    (processUpload demoEnv badMimeReq emptyState).2 = emptyState :=
  upload_rejected_no_side_effects demoEnv badMimeReq emptyState (Or.inl (by decide))

/-- Counterexample for C1: in a two-file batch whose second file fails to
transcode, the blob written for the first file is still present in the blob
store after the request completes — the claim that **no** blob of the batch
remains is false on this input. -/
theorem upload_transcode_rollback_cex :
    mixedReq.files.all (fun f => f.decodable) = false ∧
    "10-aa.webp" ∈ writtenNames demoEnv.nameGen 0 mixedReq.files ∧
    "10-aa.webp" ∈ (processUpload demoEnv mixedReq emptyState).2.blobs := by
  decide

/-- C1 (amended): when every pre-check passes and at least one file fails to
transcode, the request fails with 500 "Failed to process images" and no
record is inserted, but every blob written for a successfully transcoded
sibling remains in the blob store — the catch path performs no rollback. -/
theorem upload_transcode_failure_behavior (env : UploadEnv) (req : UploadRequest)
    (st : ServerState)
    (hm : multerScan 0 req.files = none)
    (hne : req.files.isEmpty = false)
    (hpal : (falsy req.primary || falsy req.accent || falsy req.light) = false)
    (hfail : req.files.all (fun f => f.decodable) = false) :
    (processUpload env req st).1 = UploadResult.err 500 "Failed to process images" ∧
    (processUpload env req st).2.trees = st.trees ∧
    (processUpload env req st).2.blobs = st.blobs ++ writtenNames env.nameGen 0 req.files := by
  simp [processUpload, hm, hne, hpal, hfail]

/-- Witness for C1 (amended): the mixed batch. -/
theorem upload_transcode_failure_behavior_witness :
    (processUpload demoEnv mixedReq emptyState).1 =
      UploadResult.err 500 "Failed to process images" ∧
    (processUpload demoEnv mixedReq emptyState).2.trees = emptyState.trees ∧
    (processUpload demoEnv mixedReq emptyState).2.blobs =
      emptyState.blobs ++ writtenNames demoEnv.nameGen 0 mixedReq.files :=
  upload_transcode_failure_behavior demoEnv mixedReq emptyState
    (by decide) (by decide) (by decide) (by decide)

/-- Counterexample for C8: a batch containing an undecodable file that passed
the MIME check is answered with status 500, which is not 400-class. -/
theorem upload_transcode_status_cex :
    mixedReq.files.all (fun f => f.decodable) = false ∧
    statusOf (processUpload demoEnv mixedReq emptyState).1 = 500 ∧
    ¬(400 ≤ statusOf (processUpload demoEnv mixedReq emptyState).1 ∧
      statusOf (processUpload demoEnv mixedReq emptyState).1 < 500) := by
  decide

/-- C8 (amended): a transcode failure after a passed MIME check is answered
with the 500-class response `{"error":"Failed to process images"}` — the same
class as storage errors, not a distinct 400-class TranscodeError. -/
theorem upload_transcode_error_is_500 (env : UploadEnv) (req : UploadRequest)
    (st : ServerState)
    (hm : multerScan 0 req.files = none)
    (hne : req.files.isEmpty = false)
    (hpal : (falsy req.primary || falsy req.accent || falsy req.light) = false)
    (hfail : req.files.all (fun f => f.decodable) = false) :
    (processUpload env req st).1 = UploadResult.err 500 "Failed to process images" ∧
    statusOf (processUpload env req st).1 = 500 := by
  simp [processUpload, hm, hne, hpal, hfail, statusOf]

/-- Witness for C8 (amended). -/
theorem upload_transcode_error_is_500_witness :
    (processUpload demoEnv mixedReq emptyState).1 =
      UploadResult.err 500 "Failed to process images" ∧
    statusOf (processUpload demoEnv mixedReq emptyState).1 = 500 :=
  upload_transcode_error_is_500 demoEnv mixedReq emptyState
    (by decide) (by decide) (by decide) (by decide)

/-- C3: when every file transcodes and is written but the metadata insert
fails, the request is answered 500 "Database error", no record exists
afterwards, and none of the blobs written for the request remains in the blob
store (the `db.run` error callback unlinks them before responding). -/
theorem upload_insert_failure_rollback (env : UploadEnv) (req : UploadRequest)
    (st : ServerState)
    (hm : multerScan 0 req.files = none)
    (hne : req.files.isEmpty = false)
    (hpal : (falsy req.primary || falsy req.accent || falsy req.light) = false)
    (hdec : req.files.all (fun f => f.decodable) = true)
    (hins : env.insertOk = false) :
    (processUpload env req st).1 = UploadResult.err 500 "Database error" ∧
    (processUpload env req st).2.trees = st.trees ∧
    ∀ b ∈ writtenNames env.nameGen 0 req.files,
      b ∉ (processUpload env req st).2.blobs := by
  have key : processUpload env req st =
      (UploadResult.err 500 "Database error",
       { blobs := (st.blobs ++ writtenNames env.nameGen 0 req.files).filter
           (fun b => !(writtenNames env.nameGen 0 req.files).contains b)
         trees := st.trees }) := by
    simp [processUpload, hm, hne, hpal, hdec, hins]
  rw [key]
  refine ⟨rfl, rfl, fun b hb hmem => ?_⟩
  rw [List.mem_filter] at hmem
  have hfalse := hmem.2
  simp only [Bool.not_eq_true'] at hfalse
  have htrue : (writtenNames env.nameGen 0 req.files).contains b = true :=
    List.elem_eq_true_of_mem hb
  rw [hfalse] at htrue
  cases htrue

/-- Witness for C3: a valid two-file batch against a failing insert. -/
theorem upload_insert_failure_rollback_witness :
    (processUpload { demoEnv with insertOk := false } validReq emptyState).1 =
      UploadResult.err 500 "Database error" ∧
    (processUpload { demoEnv with insertOk := false } validReq emptyState).2.trees =
      emptyState.trees ∧
    ∀ b ∈ writtenNames { demoEnv with insertOk := false }.nameGen 0 validReq.files,
      b ∉ (processUpload { demoEnv with insertOk := false } validReq emptyState).2.blobs :=
  upload_insert_failure_rollback { demoEnv with insertOk := false } validReq emptyState
    (by decide) (by decide) (by decide) (by decide) rfl

/-- When every file of the batch transcodes, the written blob names are
exactly the generated names of the file indices, in submission order. -/
theorem writtenNames_all_decodable (gen : Nat → String) :
    ∀ (fs : List UploadFile) (i : Nat), fs.all (fun f => f.decodable) = true →
      writtenNames gen i fs = (List.range' i fs.length).map gen := by
  intro fs
  induction fs with
  | nil => intro i _; rfl
  | cons f fs ih =>
    intro i h
    simp only [List.all_cons, Bool.and_eq_true] at h
    simp [writtenNames, h.1, ih (i + 1) h.2, List.range']

/-- C2: an accepted upload (multer passes, batch non-empty, all three palette
fields non-empty, every file transcodes, the insert succeeds) returns the new
id, and `GET /api/tree/{id}` on the resulting state answers with the submitted
palette and one image URL per uploaded file, indexed in submission order
(`i ↦ baseUrl/api/image/{name of file i}`), so the URL count equals the file
count. -/
theorem upload_roundtrip (env : UploadEnv) (req : UploadRequest) (st : ServerState)
    (baseUrl p a l : String)
    (hm : multerScan 0 req.files = none)
    (hne : req.files.isEmpty = false)
    (hp : req.primary = some p) (hp2 : (p == "") = false)
    (ha : req.accent = some a) (ha2 : (a == "") = false)
    (hl : req.light = some l) (hl2 : (l == "") = false)
    (hdec : req.files.all (fun f => f.decodable) = true)
    (hins : env.insertOk = true)
    (hid : matchUuid env.treeId.toList = true)
    (hfresh : st.trees.find? (fun r => r.id == env.treeId) = none) :
    (processUpload env req st).1 = UploadResult.ok env.treeId ∧
    getTree (processUpload env req st).2 baseUrl env.treeId =
      TreeResult.ok env.treeId { primary := p, accent := a, light := l }
        ((List.range' 0 req.files.length).map
          (fun i => baseUrl ++ "/api/image/" ++ env.nameGen i)) env.now ∧
    ((List.range' 0 req.files.length).map
      (fun i => baseUrl ++ "/api/image/" ++ env.nameGen i)).length = req.files.length := by
  have hpal : (falsy req.primary || falsy req.accent || falsy req.light) = false := by
    simp [falsy, hp, ha, hl, hp2, ha2, hl2]
  have hw := writtenNames_all_decodable env.nameGen req.files 0 hdec
  set newRec : TreeRecord :=
    { id := env.treeId
      images := writtenNames env.nameGen 0 req.files
      colors := { primary := p, accent := a, light := l }
      createdAt := env.now } with hnew
  have key : processUpload env req st =
      (UploadResult.ok env.treeId,
       { blobs := st.blobs ++ writtenNames env.nameGen 0 req.files
         trees := st.trees ++ [newRec] }) := by
    simp [processUpload, hm, hne, hpal, hdec, hins, hp, ha, hl, hnew, falsy, hp2, ha2, hl2]
  rw [key]
  have hmatch : (!matchUuid env.treeId.data) = false := by
    have hd : matchUuid env.treeId.data = true := hid
    rw [hd]
    rfl
  refine ⟨rfl, ?_, by simp⟩
  simp [getTree, hmatch, hfresh, hnew, hw, List.map_map, Function.comp]

/-- Witness for C2: a valid two-file batch on the empty state. -/
theorem upload_roundtrip_witness :
    (processUpload demoEnv validReq emptyState).1 = UploadResult.ok demoEnv.treeId ∧
    getTree (processUpload demoEnv validReq emptyState).2 "http://h" demoEnv.treeId =
      TreeResult.ok demoEnv.treeId
        { primary := "#ff0000", accent := "#00ff00", light := "#0000ff" }
        ((List.range' 0 validReq.files.length).map
          (fun i => "http://h" ++ "/api/image/" ++ demoEnv.nameGen i)) demoEnv.now ∧
    ((List.range' 0 validReq.files.length).map
      (fun i => "http://h" ++ "/api/image/" ++ demoEnv.nameGen i)).length =
      validReq.files.length :=
  upload_roundtrip demoEnv validReq emptyState "http://h" "#ff0000" "#00ff00" "#0000ff"
    (by decide) (by decide) rfl (by decide) rfl (by decide) rfl (by decide)
    (by decide) rfl (by decide) rfl

/-- `takeWhile`/`dropWhile` split exactly at a separator failing `p` when
everything before it satisfies `p`. -/
theorem takeWhile_append_sep {p : Char → Bool} (l₁ : List Char) (c : Char) (l₂ : List Char)
    (h₁ : ∀ x ∈ l₁, p x = true) (hc : p c = false) :
    (l₁ ++ c :: l₂).takeWhile p = l₁ ∧ (l₁ ++ c :: l₂).dropWhile p = c :: l₂ := by
  induction l₁ with
  | nil => simp [List.takeWhile_cons, List.dropWhile_cons, hc]
  | cons a as ih =>
    have ha : p a = true := h₁ a (List.mem_cons_self a as)
    have ih' := ih (fun x hx => h₁ x (List.mem_cons_of_mem a hx))
    simp [List.takeWhile_cons, List.dropWhile_cons, ha, ih'.1, ih'.2]

/-- A string of the shape `{digits}-{alnums}.webp` passes the serving regex. -/
theorem matchWebpName_parts (ds asPart : List Char)
    (hds : ds ≠ []) (hd : ∀ c ∈ ds, isDigitChar c = true)
    (has : asPart ≠ []) (ha : ∀ c ∈ asPart, isAlnumChar c = true) :
    matchWebpName (ds ++ '-' :: (asPart ++ ['.', 'w', 'e', 'b', 'p'])) = true := by
  have h1 := takeWhile_append_sep ds '-' (asPart ++ ['.', 'w', 'e', 'b', 'p']) hd (by decide)
  have h2 := takeWhile_append_sep asPart '.' ['w', 'e', 'b', 'p'] ha (by decide)
  have e1 : ds.isEmpty = false := by
    cases ds with
    | nil => exact absurd rfl hds
    | cons _ _ => rfl
  have e2 : asPart.isEmpty = false := by
    cases asPart with
    | nil => exact absurd rfl has
    | cons _ _ => rfl
  simp only [matchWebpName, h1.1, h1.2, h2.1, h2.2, e1, e2]
  decide

/-- Base-36 digits are in the serving regex's `[a-z0-9]/i` class. -/
theorem isAlnumChar_of_base36 (c : Char) (h : isBase36Digit c = true) :
    isAlnumChar c = true := by
  simp only [isBase36Digit, Bool.or_eq_true] at h
  simp only [isAlnumChar, Bool.or_eq_true]
  tauto

/-- `digitChar` of a value below 10 is an ASCII digit. -/
theorem isDigitChar_digitChar (d : Nat) (h : d < 10) :
    isDigitChar (digitChar d) = true := by
  interval_cases d <;> decide

/-- With enough fuel, the decimal rendering is non-empty and all digits. -/
theorem natDigitsAux_spec : ∀ (fuel n : Nat), n < fuel →
    natDigitsAux fuel n ≠ [] ∧ ∀ c ∈ natDigitsAux fuel n, isDigitChar c = true := by
  intro fuel
  induction fuel with
  | zero => intro n h; omega
  | succ f ih =>
    intro n _h
    by_cases h10 : n < 10
    · refine ⟨by simp [natDigitsAux, h10], ?_⟩
      intro c hc
      simp only [natDigitsAux, h10, if_true, List.mem_singleton] at hc
      subst hc
      exact isDigitChar_digitChar n h10
    · have hdiv : n / 10 < n := Nat.div_lt_self (by omega) (by omega)
      have hf : n / 10 < f := by omega
      obtain ⟨hne, hall⟩ := ih (n / 10) hf
      refine ⟨by simp [natDigitsAux, h10], ?_⟩
      intro c hc
      simp only [natDigitsAux, h10, if_false, List.mem_append, List.mem_singleton] at hc
      rcases hc with hc | hc
      · exact hall c hc
      · subst hc
        exact isDigitChar_digitChar (n % 10) (Nat.mod_lt _ (by omega))

/-- The decimal rendering of any timestamp is non-empty and all digits. -/
theorem natDigits_spec (n : Nat) :
    natDigits n ≠ [] ∧ ∀ c ∈ natDigits n, isDigitChar c = true :=
  natDigitsAux_spec (n + 1) n (Nat.lt_succ_self n)

/-- The characters of a generated blob name, split into its parts. -/
theorem genBlobName_toList (t : Nat) (frac : List Char) :
    (genBlobName t frac).toList =
      natDigits t ++ '-' :: (frac.take 6 ++ ['.', 'w', 'e', 'b', 'p']) := by
  show (genBlobName t frac).data = _
  simp [genBlobName, String.data_append]

/-- An occurrence of `..` forces at least two dots. -/
theorem containsSub_dots_count : ∀ l : List Char,
    containsSub ['.', '.'] l = true → 2 ≤ l.count '.' := by
  intro l
  induction l with
  | nil => intro h; simp [containsSub] at h
  | cons c rest ih =>
    intro h
    rw [containsSub, Bool.or_eq_true] at h
    rcases h with h | h
    · cases rest with
      | nil => simp [List.isPrefixOf] at h
      | cons r rs =>
        simp only [List.isPrefixOf, Bool.and_eq_true, beq_iff_eq] at h
        obtain ⟨hc, hr, -⟩ := h
        subst hc
        subst hr
        simp [List.count_cons]
    · have := ih h
      simp only [List.count_cons]
      omega

/-- Every character of a generated name is a digit, the separator, a base-36
digit, or one of `.webp`. -/
theorem genBlobName_chars (t : Nat) (frac : List Char)
    (hchars : ∀ c ∈ frac, isBase36Digit c = true) :
    ∀ x ∈ (genBlobName t frac).toList,
      isDigitChar x = true ∨ x = '-' ∨ isBase36Digit x = true ∨
        x ∈ (['.', 'w', 'e', 'b', 'p'] : List Char) := by
  rw [genBlobName_toList]
  intro x hx
  rcases List.mem_append.mp hx with h | h
  · exact Or.inl ((natDigits_spec t).2 x h)
  · rcases List.mem_cons.mp h with h | h
    · exact Or.inr (Or.inl h)
    · rcases List.mem_append.mp h with h | h
      · exact Or.inr (Or.inr (Or.inl (hchars x (List.take_subset 6 frac h))))
      · exact Or.inr (Or.inr (Or.inr h))

/-- A generated name contains exactly one dot: the one of its extension. -/
theorem genBlobName_count_dots (t : Nat) (frac : List Char)
    (hchars : ∀ c ∈ frac, isBase36Digit c = true) :
    ((genBlobName t frac).toList).count '.' = 1 := by
  rw [genBlobName_toList]
  have h1 : (natDigits t).count '.' = 0 := by
    rw [List.count_eq_zero]
    intro hmem
    exact absurd ((natDigits_spec t).2 '.' hmem) (by decide)
  have h2 : (frac.take 6).count '.' = 0 := by
    rw [List.count_eq_zero]
    intro hmem
    exact absurd (hchars '.' (List.take_subset 6 frac hmem)) (by decide)
  simp [List.count_append, List.count_cons, h1, h2]

/-- A generated name never triggers the traversal rejection: it has no `/`,
no `\`, and no `..`. -/
theorem genBlobName_no_traversal (t : Nat) (frac : List Char)
    (hchars : ∀ c ∈ frac, isBase36Digit c = true) :
    hasTraversal (genBlobName t frac) = false := by
  have hch := genBlobName_chars t frac hchars
  have hslash : ('/' : Char) ∉ (genBlobName t frac).toList := by
    intro hmem
    rcases hch '/' hmem with h | h | h | h
    · exact absurd h (by decide)
    · exact absurd h (by decide)
    · exact absurd h (by decide)
    · exact absurd h (by decide)
  have hback : ('\\' : Char) ∉ (genBlobName t frac).toList := by
    intro hmem
    rcases hch '\\' hmem with h | h | h | h
    · exact absurd h (by decide)
    · exact absurd h (by decide)
    · exact absurd h (by decide)
    · exact absurd h (by decide)
  have h1 : containsSub ['.', '.'] ((genBlobName t frac).toList) = false := by
    cases hc : containsSub ['.', '.'] ((genBlobName t frac).toList) with
    | false => rfl
    | true =>
      exfalso
      have := containsSub_dots_count _ hc
      rw [genBlobName_count_dots t frac hchars] at this
      omega
  have h2 : (genBlobName t frac).toList.contains '/' = false := by
    cases hc : (genBlobName t frac).toList.contains '/' with
    | false => rfl
    | true => exact absurd (List.mem_of_elem_eq_true hc) hslash
  have h3 : (genBlobName t frac).toList.contains '\\' = false := by
    cases hc : (genBlobName t frac).toList.contains '\\' with
    | false => rfl
    | true => exact absurd (List.mem_of_elem_eq_true hc) hback
  unfold hasTraversal
  rw [h1, h2, h3]
  rfl

/-- Counterexample for C10: `Math.random()` may return exactly 0, whose
base-36 rendering `"0"` leaves `substring(2, 8)` empty; the generated name is
then `{t}-.webp`, which fails the serving regex, so that blob — though
written and referenced by its record — is answered 400 by
`GET /api/image/{name}` even while it exists on disk. -/
theorem genBlobName_zero_random_cex :
    genBlobName 0 [] = "0-.webp" ∧
    matchWebpName (genBlobName 0 []).toList = false ∧
    serveImage [genBlobName 0 []] (genBlobName 0 []) =
      ImageResult.err 400 "Invalid filename format" := by
  decide

/-- C10 (amended): for every timestamp and every non-zero value of
`Math.random()` — i.e. a non-empty base-36 fraction — the generated blob name
contains no path separator or `..`, matches the serving regex, and is
therefore served (not rejected) by `GET /api/image/{name}` whenever it exists
in the blob store. -/
theorem genBlobName_matches_serving (t : Nat) (frac : List Char)
    (hne : frac ≠ [])
    (hchars : ∀ c ∈ frac, isBase36Digit c = true) :
    hasTraversal (genBlobName t frac) = false ∧
    matchWebpName (genBlobName t frac).toList = true ∧
    ∀ fsFiles : List String, genBlobName t frac ∈ fsFiles →
      serveImage fsFiles (genBlobName t frac) = ImageResult.file (genBlobName t frac) := by
  have htrav := genBlobName_no_traversal t frac hchars
  have hmatch : matchWebpName (genBlobName t frac).toList = true := by
    rw [genBlobName_toList]
    refine matchWebpName_parts (natDigits t) (frac.take 6) (natDigits_spec t).1
      (natDigits_spec t).2 ?_ ?_
    · cases frac with
      | nil => exact absurd rfl hne
      | cons c cs => simp [List.take]
    · intro c hc
      exact isAlnumChar_of_base36 c (hchars c (List.take_subset 6 frac hc))
  refine ⟨htrav, hmatch, fun fsFiles hmem => ?_⟩
  have hmatch' : matchWebpName (genBlobName t frac).data = true := hmatch
  simp [serveImage, htrav, hmatch', hmem]

/-- Witness for C10 (amended): a concrete timestamp and a 7-digit base-36
fraction. -/
theorem genBlobName_matches_serving_witness :
    hasTraversal (genBlobName 1700000000000 ['a', '1', 'b', '2', 'c', '3', 'd']) = false ∧
    matchWebpName (genBlobName 1700000000000 ['a', '1', 'b', '2', 'c', '3', 'd']).toList = true ∧
    serveImage [genBlobName 1700000000000 ['a', '1', 'b', '2', 'c', '3', 'd']]
        (genBlobName 1700000000000 ['a', '1', 'b', '2', 'c', '3', 'd']) =
      ImageResult.file (genBlobName 1700000000000 ['a', '1', 'b', '2', 'c', '3', 'd']) :=
  ⟨(genBlobName_matches_serving 1700000000000 ['a', '1', 'b', '2', 'c', '3', 'd']
      (by decide) (by decide)).1,
   (genBlobName_matches_serving 1700000000000 ['a', '1', 'b', '2', 'c', '3', 'd']
      (by decide) (by decide)).2.1,
   (genBlobName_matches_serving 1700000000000 ['a', '1', 'b', '2', 'c', '3', 'd']
      (by decide) (by decide)).2.2
     [genBlobName 1700000000000 ['a', '1', 'b', '2', 'c', '3', 'd']]
     (List.mem_singleton.mpr rfl)⟩

end TreeNode
